import Mathlib

/-!
Verification development for the MetaUI widget toolkit
(geometry primitives, the Widget base class, the Container dispatch,
the Box / ScrollView / Sidebar layout strategies and the leaf widgets
Text, Button, TextInput, Slider).

The C++ sources are embedded shallowly: `float` is modelled by `ℚ`
(exact arithmetic over the same field operations the code performs),
`std::string` payloads by `List Char`, virtual hooks by function-valued
fields, and member mutation by explicit state passing.  Optional event
handler closures (`onClickHandler_`, `onChangeHandler_`, ...) are
modelled by recording the invocations the code would perform: each
widget carries an id and handler calls are logged / counted.
-/

set_option autoImplicit false

namespace MetaUI

/-! ## Geometry and style primitives (core.hpp) -/

/-- `struct Point { float x, y; }` -/
structure Point where
  x : ℚ
  y : ℚ
deriving DecidableEq, Repr

/-- `struct Size { float width, height; }` -/
structure Size where
  width : ℚ
  height : ℚ
deriving DecidableEq, Repr

/-- `struct Rect { float x, y, width, height; }` -/
structure Rect where
  x : ℚ
  y : ℚ
  width : ℚ
  height : ℚ
deriving DecidableEq, Repr

/-- `Rect::contains(px, py)`: `px >= x && px <= x + width && py >= y && py <= y + height`. -/
def Rect.contains (r : Rect) (p : Point) : Bool :=
  decide (r.x ≤ p.x) && decide (p.x ≤ r.x + r.width) &&
  decide (r.y ≤ p.y) && decide (p.y ≤ r.y + r.height)

/-- `struct Padding { float top, right, bottom, left; }` -/
structure Padding where
  top : ℚ
  right : ℚ
  bottom : ℚ
  left : ℚ
deriving DecidableEq, Repr

/-- `Padding::horizontal() { return left + right; }` -/
def Padding.horizontal (p : Padding) : ℚ := p.left + p.right

/-- `Padding::vertical() { return top + bottom; }` -/
def Padding.vertical (p : Padding) : ℚ := p.top + p.bottom

/-- `struct BorderRadius { float topLeft, topRight, bottomRight, bottomLeft; }` -/
structure BorderRadius where
  topLeft : ℚ
  topRight : ℚ
  bottomRight : ℚ
  bottomLeft : ℚ
deriving DecidableEq, Repr

/-- `struct Color { float r, g, b, a; }` -/
structure Color where
  r : ℚ
  g : ℚ
  b : ℚ
  a : ℚ
deriving DecidableEq, Repr

/-- `enum class SizeConstraint { Fixed, Fill, Content, Percent }` -/
inductive SizeConstraint where
  | Fixed
  | Fill
  | Content
  | Percent
deriving DecidableEq, Repr

/-- `struct SizeSpec { SizeConstraint constraint; float value; }` -/
structure SizeSpec where
  constraint : SizeConstraint
  value : ℚ
deriving DecidableEq, Repr

/-- `enum class Direction { Horizontal, Vertical }` -/
inductive Direction where
  | Horizontal
  | Vertical
deriving DecidableEq, Repr

/-- `enum class Alignment { Start, Center, End, Stretch }` -/
inductive Alignment where
  | Start
  | Center
  | End
  | Stretch
deriving DecidableEq, Repr

/-- `enum class MouseButton { Left, Right, Middle, Button4, Button5 }` -/
inductive MouseButton where
  | Left
  | Right
  | Middle
  | Button4
  | Button5
deriving DecidableEq, Repr, BEq

/-- `struct MouseEvent { Point position; Point delta; MouseButton button; bool pressed; uint32_t mods; }`
(the `delta` and `mods` fields are never read by the widget code modelled here). -/
structure MouseEvent where
  position : Point
  button : MouseButton
  pressed : Bool
deriving Repr

/-- `struct KeyEvent { uint32_t keycode; uint32_t keysym; bool pressed; uint32_t mods; std::string text; }`
(`keysym` and `mods` are not read by `TextInput::handleKeyEvent` in
`include/metaui/widgets.hpp`, which dispatches on `keycode`; `text` is
modelled as a list of characters). -/
structure KeyEvent where
  keycode : Nat
  pressed : Bool
  text : List Char
deriving DecidableEq, Repr

/-- `struct ScrollEvent { Point position; float deltaX; float deltaY; }` -/
structure ScrollEvent where
  position : Point
  deltaX : ℚ
  deltaY : ℚ
deriving DecidableEq, Repr

/-- `struct TextStyle` (the fields read by the rendering code modelled here). -/
structure TextStyle where
  fontSize : ℚ
  lineHeight : ℚ
  align : Nat   -- 0 = Left, 1 = Center, 2 = Right  (TextStyle::Align)
  valign : Nat  -- 0 = Top, 1 = Middle, 2 = Bottom  (TextStyle::VAlign)
  color : Color
deriving Repr

/-- `struct BoxStyle` (the fields read by measure / layout / render). -/
structure BoxStyle where
  background : Color
  borderColor : Color
  borderWidth : ℚ
  borderRadius : BorderRadius
  padding : Padding
  margin : Padding
  hasShadow : Bool
  shadowColor : Color
  shadowOffset : Point
  hasGradient : Bool
deriving Repr

/-- `BoxStyle` default member initialisers. -/
def BoxStyle.init : BoxStyle where
  background := ⟨0, 0, 0, 0⟩
  borderColor := ⟨0, 0, 0, 0⟩
  borderWidth := 0
  borderRadius := ⟨0, 0, 0, 0⟩
  padding := ⟨0, 0, 0, 0⟩
  margin := ⟨0, 0, 0, 0⟩
  hasShadow := false
  shadowColor := ⟨0, 0, 0, 3/10⟩
  shadowOffset := ⟨0, 2⟩
  hasGradient := false

/-! ## Widget base class (widget.hpp)

A `WidgetState` carries the data members of the C++ `Widget` base class
that the modelled member functions read or write.  The virtual
`measureContent` hook is a function-valued field (the base class default
is `fun _ => Size(0, 0)`); the optional `onClickHandler_` closure is
modelled by the flag `hasOnClick` together with the widget `id` used to
log its invocation. -/

structure WidgetState where
  id : Nat
  widthSpec : SizeSpec
  heightSpec : SizeSpec
  style : BoxStyle
  visible : Bool
  enabled : Bool
  hasOnClick : Bool
  bounds : Rect
  contentBounds : Rect
  measuredSize : Size
  measureContentF : Size → Size

/-- The C++ default member initialisers of `Widget`
(`widthSpec_{SizeConstraint::Content}`, `visible_ = true`,
`enabled_ = true`, `Rect()` / `Size()` zero-initialised, base
`measureContent` returning `Size(0, 0)`). -/
def Widget.init : WidgetState where
  id := 0
  widthSpec := ⟨SizeConstraint.Content, 0⟩
  heightSpec := ⟨SizeConstraint.Content, 0⟩
  style := BoxStyle.init
  visible := true
  enabled := true
  hasOnClick := false
  bounds := ⟨0, 0, 0, 0⟩
  contentBounds := ⟨0, 0, 0, 0⟩
  measuredSize := ⟨0, 0⟩
  measureContentF := fun _ => ⟨0, 0⟩

/-- `Widget::measure(Size available)` from widget.hpp: returns `Size(0,0)`
when not visible; otherwise subtracts the margin from `available`,
resolves each axis from its `SizeSpec` (`Fixed` → `spec.value`, `Fill` →
adjusted available, `Percent` → adjusted available `* value / 100`,
`Content` → `measureContent(available)` plus padding on that axis) and
caches the result in `measuredSize_`.  Returns the resolved size paired
with the updated widget state. -/
def Widget.measure (w : WidgetState) (available : Size) : Size × WidgetState :=
  if w.visible = false then (⟨0, 0⟩, w)
  else
    let avail : Size := ⟨available.width - w.style.margin.horizontal,
                         available.height - w.style.margin.vertical⟩
    let rw : ℚ :=
      match w.widthSpec.constraint with
      | SizeConstraint.Fixed => w.widthSpec.value
      | SizeConstraint.Fill => avail.width
      | SizeConstraint.Percent => avail.width * (w.widthSpec.value / 100)
      | SizeConstraint.Content => (w.measureContentF avail).width + w.style.padding.horizontal
    let rh : ℚ :=
      match w.heightSpec.constraint with
      | SizeConstraint.Fixed => w.heightSpec.value
      | SizeConstraint.Fill => avail.height
      | SizeConstraint.Percent => avail.height * (w.heightSpec.value / 100)
      | SizeConstraint.Content => (w.measureContentF avail).height + w.style.padding.vertical
    (⟨rw, rh⟩, { w with measuredSize := ⟨rw, rh⟩ })

/-- `Widget::layout(const Rect&)` restricted to a leaf widget (the
`layoutChildren()` hook of the base class is a no-op): sets `bounds_`
and derives `contentBounds_` by insetting the rect by `style_.padding`. -/
def Widget.layoutLeaf (w : WidgetState) (rect : Rect) : WidgetState :=
  { w with
    bounds := rect
    contentBounds := ⟨rect.x + w.style.padding.left, rect.y + w.style.padding.top,
                      rect.width - w.style.padding.horizontal,
                      rect.height - w.style.padding.vertical⟩ }

/-- `Widget::handleMouseButton(const MouseEvent&)`: returns `false` when
disabled; on a left-button press inside `bounds_` fires `onClick` (when
installed) and returns `true`; otherwise returns `false`.  The second
component logs the ids of the widgets whose `onClick` handler was
invoked. -/
def Widget.handleMouseButton (w : WidgetState) (e : MouseEvent) : Bool × List Nat :=
  if w.enabled = false then (false, [])
  else if e.pressed && decide (e.button = MouseButton.Left) && w.bounds.contains e.position then
    (true, if w.hasOnClick then [w.id] else [])
  else (false, [])

/-! ## Container (widget.hpp)

`Container` holds an ordered `std::vector<WidgetPtr>` of children and
dispatches events through virtual calls.  The subset of the class
hierarchy relevant to mouse-button dispatch (base `Widget` behaviour and
`Container` fan-out) is embedded as a tree; `WTreeList` mirrors the
child vector. -/

mutual
inductive WTree where
  | leaf (s : WidgetState)
  | cont (s : WidgetState) (children : WTreeList)
inductive WTreeList where
  | nil
  | cons (w : WTree) (ws : WTreeList)
end

mutual

/-- `Container::handleMouseButton`: first `Widget::handleMouseButton`
on the container itself; if that returned `true` the event is consumed;
otherwise the children are tried in insertion order, returning at the
first child that returns `true`.  The log accumulates the `onClick`
invocations of every child consulted. -/
def WTree.handleMouseButton : WTree → MouseEvent → Bool × List Nat
  | WTree.leaf s, e => Widget.handleMouseButton s e
  | WTree.cont s cs, e =>
    let r := Widget.handleMouseButton s e
    if r.1 then r
    else WTreeList.handleMouseButton cs e

/-- The child loop of `Container::handleMouseButton`:
`for (auto& child : children_) if (child->handleMouseButton(event)) return true;`. -/
def WTreeList.handleMouseButton : WTreeList → MouseEvent → Bool × List Nat
  | WTreeList.nil, _ => (false, [])
  | WTreeList.cons c rest, e =>
    let rc := WTree.handleMouseButton c e
    if rc.1 then rc
    else
      let rr := WTreeList.handleMouseButton rest e
      (rr.1, rc.2 ++ rr.2)

end

/-! ## Rendering (renderer.hpp and the widget render overrides)

Rendering is modelled as the list of primitive draw calls a widget
issues into the `Renderer`; the renderer capability (`loadFont` /
`Font::measureText`) is passed in as an explicit argument. -/

/-- One primitive drawing call issued to the `Renderer`. -/
inductive DrawCmd where
  | shadow (rect : Rect)
  | gradientBg (rect : Rect)
  | roundedBg (rect : Rect)
  | rectBg (rect : Rect)
  | borderLine (rect : Rect)
  | glyphs (text : List Char) (pos : Point)
deriving DecidableEq, Repr

/-- The font capability: `Font::measureText` returns per-string geometry. -/
structure Font where
  measureTextF : List Char → Size

/-- `Widget::render(Renderer&)` from renderer.hpp: returns early when
`visible_` is false; otherwise draws the shadow (when enabled), then the
background (gradient when enabled, else — when the background alpha is
positive — a rounded rect when any corner radius is nonzero, else a
plain rect), then the border (when `borderWidth > 0` and the border
color has positive alpha). -/
def Widget.render (w : WidgetState) : List DrawCmd :=
  if w.visible = false then []
  else
    let shadowCmds : List DrawCmd :=
      if w.style.hasShadow then
        [DrawCmd.shadow ⟨w.bounds.x + w.style.shadowOffset.x,
                         w.bounds.y + w.style.shadowOffset.y,
                         w.bounds.width, w.bounds.height⟩]
      else []
    let bgCmds : List DrawCmd :=
      if w.style.hasGradient then [DrawCmd.gradientBg w.bounds]
      else if 0 < w.style.background.a then
        if 0 < w.style.borderRadius.topLeft ∨ 0 < w.style.borderRadius.topRight ∨
           0 < w.style.borderRadius.bottomLeft ∨ 0 < w.style.borderRadius.bottomRight then
          [DrawCmd.roundedBg w.bounds]
        else [DrawCmd.rectBg w.bounds]
      else []
    let borderCmds : List DrawCmd :=
      if 0 < w.style.borderWidth ∧ 0 < w.style.borderColor.a then
        [DrawCmd.borderLine w.bounds]
      else []
    shadowCmds ++ bgCmds ++ borderCmds

/-- `Container::render`: renders itself through the base class, then
every child that `isVisible()` in insertion order (children modelled as
base widgets). -/
def Container.render (self : WidgetState) (children : List WidgetState) : List DrawCmd :=
  Widget.render self ++
    children.flatMap (fun c => if c.visible then Widget.render c else [])

/-! ## Text widget (include/metaui/widgets.hpp) -/

/-- The data members of `Text` read by `Text::render`. -/
structure TextState where
  widget : WidgetState
  text : List Char
  textStyle : TextStyle

/-- `Text::render(Renderer&)` from include/metaui/widgets.hpp: calls
`Widget::render`, returns when the text is empty, loads the font
(returning when unavailable), positions the text inside
`contentBounds_` per the alignment fields and issues `drawText`.
Note: the override itself never re-checks `visible_`; only the base
call does. -/
def Text.render (t : TextState) (loadFont : Option Font) : List DrawCmd :=
  let base := Widget.render t.widget
  if t.text.isEmpty then base
  else
    match loadFont with
    | none => base
    | some font =>
      let textSize := font.measureTextF t.text
      let cb := t.widget.contentBounds
      let tx : ℚ :=
        if t.textStyle.align = 1 then cb.x + (cb.width - textSize.width) / 2
        else if t.textStyle.align = 2 then cb.x + (cb.width - textSize.width)
        else cb.x
      let ty : ℚ :=
        if t.textStyle.valign = 1 then cb.y + (cb.height - textSize.height) / 2
        else if t.textStyle.valign = 2 then cb.y + (cb.height - textSize.height)
        else cb.y
      base ++ [DrawCmd.glyphs t.text ⟨tx, ty⟩]

/-! ## Box layout (include/metaui/layouts.hpp)

The children of a `Box` are measured through the virtual
`Widget::measure`; they are modelled here as base widgets
(`WidgetState`), which covers every leaf widget since `measure` itself
is non-virtual and only the `measureContent` hook (a function field)
varies per type. -/

/-- `Box::measureContent(Size available)`: `(0,0)` for no children;
otherwise, with `totalSpacing = spacing * (n - 1)`, measures every
child against the available size reduced by `totalSpacing` on the main
axis, sums the main-axis sizes (plus `totalSpacing`) and takes the
running maximum (seeded with 0) on the cross axis.  Returns the content
size paired with the updated children (each child's `measure` caches
its `measuredSize_`). -/
def Box.measureContent (direction : Direction) (spacing : ℚ)
    (children : List WidgetState) (available : Size) : Size × List WidgetState :=
  if children.isEmpty then (⟨0, 0⟩, children)
  else
    let totalSpacing : ℚ := spacing * ((children.length - 1 : Nat) : ℚ)
    match direction with
    | Direction.Horizontal =>
      let childAvailable : Size := ⟨available.width - totalSpacing, available.height⟩
      let results := children.map (fun c => Widget.measure c childAvailable)
      let sizes := results.map Prod.fst
      (⟨(sizes.map Size.width).sum + totalSpacing,
        sizes.foldl (fun m s => max m s.height) 0⟩,
       results.map Prod.snd)
    | Direction.Vertical =>
      let childAvailable : Size := ⟨available.width, available.height - totalSpacing⟩
      let results := children.map (fun c => Widget.measure c childAvailable)
      let sizes := results.map Prod.fst
      (⟨sizes.foldl (fun m s => max m s.width) 0,
        (sizes.map Size.height).sum + totalSpacing⟩,
       results.map Prod.snd)

/-! ## ScrollView (include/metaui/layouts.hpp)

Child access `children_[0]` is modelled with `List.get?`; a `none`
result marks an out-of-range access (which the guards in the code are
meant to rule out). -/

/-- The `1e9f` sentinel used as the effectively unbounded extent on the
scroll axis. -/
def bigSentinel : ℚ := 1000000000

/-- The data members of `ScrollView` used by its member functions.
The single logical child is modelled as a base widget. -/
structure ScrollViewState where
  contentBounds : Rect
  scrollDir : Direction
  scrollOffset : Point
  children : List WidgetState

/-- `ScrollView::measureContent(Size available)`: `(0,0)` for no
children; otherwise measures `children_[0]` with the `1e9f` sentinel on
the scroll axis and the exact available extent on the cross axis, and
returns the child's extent on the scroll axis with the available extent
on the cross axis. -/
def ScrollView.measureContent (sv : ScrollViewState) (available : Size) :
    Option (Size × ScrollViewState) :=
  if sv.children.isEmpty then some (⟨0, 0⟩, sv)
  else
    match sv.children.get? 0 with
    | none => none
    | some c0 =>
      if sv.scrollDir = Direction.Horizontal then
        let r := Widget.measure c0 ⟨bigSentinel, available.height⟩
        some (⟨r.1.width, available.height⟩, { sv with children := sv.children.set 0 r.2 })
      else
        let r := Widget.measure c0 ⟨available.width, bigSentinel⟩
        some (⟨available.width, r.1.height⟩, { sv with children := sv.children.set 0 r.2 })

/-- `ScrollView::layoutChildren()`: returns for no children; otherwise
re-measures `children_[0]` against `contentBounds_` with the sentinel
on the scroll axis and lays it out at `contentBounds_` translated by
`-scrollOffset_`. -/
def ScrollView.layoutChildren (sv : ScrollViewState) : Option ScrollViewState :=
  if sv.children.isEmpty then some sv
  else
    match sv.children.get? 0 with
    | none => none
    | some c0 =>
      let r := Widget.measure c0
        ⟨if sv.scrollDir = Direction.Horizontal then bigSentinel else sv.contentBounds.width,
         if sv.scrollDir = Direction.Vertical then bigSentinel else sv.contentBounds.height⟩
      let c0' := Widget.layoutLeaf r.2
        ⟨sv.contentBounds.x - sv.scrollOffset.x, sv.contentBounds.y - sv.scrollOffset.y,
         r.1.width, r.1.height⟩
      some { sv with children := sv.children.set 0 c0' }

/-- `ScrollView::handleScroll(const ScrollEvent&)`: returns `false`
unchanged when the event position is outside `contentBounds_`;
otherwise subtracts `delta * 20` from the offset on the scroll axis,
clamps that offset to a minimum of 0 with `std::max`, re-runs
`layoutChildren()` and returns `true`. -/
def ScrollView.handleScroll (sv : ScrollViewState) (e : ScrollEvent) :
    Option (ScrollViewState × Bool) :=
  if sv.contentBounds.contains e.position = false then some (sv, false)
  else
    let sv' :=
      if sv.scrollDir = Direction.Horizontal then
        { sv with scrollOffset := ⟨max 0 (sv.scrollOffset.x - e.deltaX * 20), sv.scrollOffset.y⟩ }
      else
        { sv with scrollOffset := ⟨sv.scrollOffset.x, max 0 (sv.scrollOffset.y - e.deltaY * 20)⟩ }
    (ScrollView.layoutChildren sv').map (fun sv2 => (sv2, true))

/-! ## Sidebar (include/metaui/layouts.hpp) -/

/-- `enum class Sidebar::Position { Left, Right, Top, Bottom }` -/
inductive SidebarPosition where
  | Left
  | Right
  | Top
  | Bottom
deriving DecidableEq, Repr

/-- The data members of `Sidebar` used by `layoutChildren`; the two
panes are modelled as base widgets. -/
structure SidebarState where
  contentBounds : Rect
  position : SidebarPosition
  sidebarSize : ℚ
  children : List WidgetState

/-- `Sidebar::layoutChildren()`: returns immediately when there are
fewer than 2 children; otherwise splits `contentBounds_` along the
chosen edge and lays out `children_[0]` (the sidebar pane) and
`children_[1]` (the main content pane) into the two rectangles. -/
def Sidebar.layoutChildren (s : SidebarState) : Option SidebarState :=
  if s.children.length < 2 then some s
  else
    match s.children.get? 0, s.children.get? 1 with
    | some sb, some ct =>
      let cb := s.contentBounds
      let panes : WidgetState × WidgetState :=
        match s.position with
        | SidebarPosition.Left =>
          (Widget.layoutLeaf sb ⟨cb.x, cb.y, s.sidebarSize, cb.height⟩,
           Widget.layoutLeaf ct ⟨cb.x + s.sidebarSize, cb.y,
                                 cb.width - s.sidebarSize, cb.height⟩)
        | SidebarPosition.Right =>
          (Widget.layoutLeaf sb ⟨cb.x + cb.width - s.sidebarSize, cb.y,
                                 s.sidebarSize, cb.height⟩,
           Widget.layoutLeaf ct ⟨cb.x, cb.y, cb.width - s.sidebarSize, cb.height⟩)
        | SidebarPosition.Top =>
          (Widget.layoutLeaf sb ⟨cb.x, cb.y, cb.width, s.sidebarSize⟩,
           Widget.layoutLeaf ct ⟨cb.x, cb.y + s.sidebarSize,
                                 cb.width, cb.height - s.sidebarSize⟩)
        | SidebarPosition.Bottom =>
          (Widget.layoutLeaf sb ⟨cb.x, cb.y + cb.height - s.sidebarSize,
                                 cb.width, s.sidebarSize⟩,
           Widget.layoutLeaf ct ⟨cb.x, cb.y, cb.width, cb.height - s.sidebarSize⟩)
      some { s with children := (s.children.set 0 panes.1).set 1 panes.2 }
    | _, _ => none

/-! ## Button (include/metaui/widgets.hpp) -/

/-- The data members of `Button` used by `handleMouseButton`. -/
structure ButtonState where
  widget : WidgetState
  pressed : Bool

/-- `Button::handleMouseButton(const MouseEvent&)`: first sets
`pressed_ = event.pressed && bounds_.contains(event.position)` —
unconditionally, before any enabled check — then delegates to
`Widget::handleMouseButton`. -/
def Button.handleMouseButton (b : ButtonState) (e : MouseEvent) :
    ButtonState × Bool × List Nat :=
  let b' := { b with pressed := e.pressed && b.widget.bounds.contains e.position }
  (b', Widget.handleMouseButton b'.widget e)

/-! ## TextInput (include/metaui/widgets.hpp)

The text buffer is `List Char`, the cursor a `Nat` index.
`onChangeCount` counts the calls the code makes to the `onChange`
handler (the model corresponds to an input with a handler installed;
without one the code performs the same state transitions and simply
skips the call). -/

structure TextInputState where
  text : List Char
  cursorPos : Nat
  focused : Bool
  onChangeCount : Nat
deriving DecidableEq, Repr

/-- `TextInput::handleKeyEvent(const KeyEvent&)` from
include/metaui/widgets.hpp: returns `false` untouched when not
focused; otherwise, on a pressed event, dispatches on `keycode`:
14 backspace (erase before cursor, fire onChange), 111 forward delete
(erase at cursor, fire onChange), 105 left / 106 right (move cursor,
clamped, no onChange), 28 enter (fires onSubmit only), any other key
with nonempty `text` inserts it at the cursor and fires onChange.
Returns `true` in every focused case. -/
def TextInput.handleKeyEvent (s : TextInputState) (e : KeyEvent) :
    TextInputState × Bool :=
  if s.focused = false then (s, false)
  else
    let s' :=
      if e.pressed = false then s
      else if e.keycode = 14 then
        if 0 < s.cursorPos then
          { s with text := s.text.take (s.cursorPos - 1) ++ s.text.drop s.cursorPos,
                   cursorPos := s.cursorPos - 1,
                   onChangeCount := s.onChangeCount + 1 }
        else s
      else if e.keycode = 111 then
        if s.cursorPos < s.text.length then
          { s with text := s.text.take s.cursorPos ++ s.text.drop (s.cursorPos + 1),
                   onChangeCount := s.onChangeCount + 1 }
        else s
      else if e.keycode = 105 then
        if 0 < s.cursorPos then { s with cursorPos := s.cursorPos - 1 } else s
      else if e.keycode = 106 then
        if s.cursorPos < s.text.length then { s with cursorPos := s.cursorPos + 1 } else s
      else if e.keycode = 28 then s
      else if e.text.isEmpty = false then
        { s with text := s.text.take s.cursorPos ++ e.text ++ s.text.drop s.cursorPos,
                 cursorPos := s.cursorPos + e.text.length,
                 onChangeCount := s.onChangeCount + 1 }
      else s
    (s', true)

/-! ## Slider (include/metaui/widgets.hpp) -/

/-- `std::clamp(v, lo, hi)`. -/
def stdClamp (v lo hi : ℚ) : ℚ :=
  if v < lo then lo else if hi < v then hi else v

/-- The data members of `Slider` used by `updateValue`. -/
structure SliderState where
  minV : ℚ
  maxV : ℚ
  value : ℚ
  bounds : Rect
  onChangeCount : Nat
deriving DecidableEq, Repr

/-- `Slider::updateValue(float mouseX)`:
`normalized = (mouseX - bounds_.x) / bounds_.width`;
`value_ = std::clamp(min_ + normalized * (max_ - min_), min_, max_)`;
fires `onChange` with the new value. -/
def Slider.updateValue (s : SliderState) (mouseX : ℚ) : SliderState :=
  let normalized : ℚ := (mouseX - s.bounds.x) / s.bounds.width
  { s with value := stdClamp (s.minV + normalized * (s.maxV - s.minV)) s.minV s.maxV,
           onChangeCount := s.onChangeCount + 1 }

/-! ## Concrete instances (used to evaluate the development on closed inputs) -/

/-- `TextStyle` default member initialisers (fontSize 14, lineHeight 1.4,
Align::Left, VAlign::Middle, white). -/
def TextStyle.init : TextStyle := ⟨14, 7/5, 0, 1, ⟨1, 1, 1, 1⟩⟩

/-- A font capability whose `measureText` returns 6 units per character
at height 14. -/
def exFont : Font := ⟨fun cs => ⟨(cs.length : ℚ) * 6, 14⟩⟩

/-- An enabled container widget laid out at (0,0)–(100,100), no
`onClick` handler installed. -/
def exContC1 : WidgetState := { Widget.init with bounds := ⟨0, 0, 100, 100⟩ }

/-- Child A: added first, bounds (0,0)–(50,50), `onClick` installed. -/
def exChildA : WidgetState :=
  { Widget.init with id := 1, hasOnClick := true, bounds := ⟨0, 0, 50, 50⟩ }

/-- Child B: added second (drawn on top), bounds (25,25)–(75,75),
`onClick` installed; overlaps A on (25,25)–(50,50). -/
def exChildB : WidgetState :=
  { Widget.init with id := 2, hasOnClick := true, bounds := ⟨25, 25, 50, 50⟩ }

/-- The container tree with children [A, B] in insertion order. -/
def exTreeC1 : WTree :=
  WTree.cont exContC1
    (WTreeList.cons (WTree.leaf exChildA) (WTreeList.cons (WTree.leaf exChildB) WTreeList.nil))

/-- The same tree with the container disabled, so that the container's
own base handler does not consume the press. -/
def exTreeC1Disabled : WTree :=
  WTree.cont { exContC1 with enabled := false }
    (WTreeList.cons (WTree.leaf exChildA) (WTreeList.cons (WTree.leaf exChildB) WTreeList.nil))

/-- A left-button press at P = (30,30), inside A, inside B and inside
the container. -/
def exPressC1 : MouseEvent := ⟨⟨30, 30⟩, MouseButton.Left, true⟩

/-- A widget with `Fill` width, `Fixed(30)` height and a uniform margin
of 5. -/
def exMeasureW : WidgetState :=
  { Widget.init with
    widthSpec := ⟨SizeConstraint.Fill, 0⟩
    heightSpec := ⟨SizeConstraint.Fixed, 30⟩
    style := { BoxStyle.init with margin := ⟨5, 5, 5, 5⟩ } }

/-- An invisible widget with an opaque red background (so that its
render would draw were it visible). -/
def exHidden : WidgetState :=
  { Widget.init with
    visible := false
    style := { BoxStyle.init with background := ⟨1, 0, 0, 1⟩ } }

/-- An invisible `Text` widget with nonempty text. -/
def exTextHidden : TextState :=
  { widget := { Widget.init with visible := false }
    text := ['a']
    textStyle := TextStyle.init }

/-- A fixed-size 40×20 child widget. -/
def exBoxChild1 : WidgetState :=
  { Widget.init with
    widthSpec := ⟨SizeConstraint.Fixed, 40⟩, heightSpec := ⟨SizeConstraint.Fixed, 20⟩ }

/-- A fixed-size 25×35 child widget. -/
def exBoxChild2 : WidgetState :=
  { Widget.init with
    widthSpec := ⟨SizeConstraint.Fixed, 25⟩, heightSpec := ⟨SizeConstraint.Fixed, 35⟩ }

/-- An empty, focused text input with the cursor at 0. -/
def exInput0 : TextInputState := ⟨[], 0, true, 0⟩

/-- Two single-character key presses, a backspace press and a
left-arrow press. -/
def exKeyA : KeyEvent := ⟨30, true, ['a']⟩

def exKeyB : KeyEvent := ⟨48, true, ['b']⟩

def exKeyBackspace : KeyEvent := ⟨14, true, []⟩

def exKeyLeft : KeyEvent := ⟨105, true, []⟩

/-- A slider over [0, 10] whose track occupies x ∈ [10, 110]. -/
def exSlider : SliderState := ⟨0, 10, 5, ⟨10, 0, 100, 10⟩, 0⟩

/-- A vertical scroll view over (0,0)–(100,100) with one fill-sized
child and zero offset. -/
def exScroll : ScrollViewState :=
  ⟨⟨0, 0, 100, 100⟩, Direction.Vertical, ⟨0, 0⟩,
   [{ Widget.init with
      widthSpec := ⟨SizeConstraint.Fill, 0⟩, heightSpec := ⟨SizeConstraint.Fixed, 300⟩ }]⟩

/-- A scroll view with no children. -/
def exScrollEmpty : ScrollViewState := ⟨⟨0, 0, 100, 100⟩, Direction.Vertical, ⟨0, 0⟩, []⟩

/-- A scroll event inside `exScroll`'s content bounds scrolling down. -/
def exScrollEvent : ScrollEvent := ⟨⟨50, 50⟩, 0, -3⟩

/-- A sidebar with a single child (one short of the required two). -/
def exSidebar1 : SidebarState :=
  ⟨⟨0, 0, 100, 100⟩, SidebarPosition.Left, 20, [exBoxChild1]⟩

/-- A disabled button laid out at (0,0)–(10,10). -/
def exButtonDisabled : ButtonState :=
  ⟨{ Widget.init with enabled := false, bounds := ⟨0, 0, 10, 10⟩ }, false⟩

/-- A left press at (5,5), inside `exButtonDisabled`. -/
def exPressC10 : MouseEvent := ⟨⟨5, 5⟩, MouseButton.Left, true⟩

/-! ## Theorems -/

/-- C8: under-populated required-child layouts are safe no-ops: a
`Sidebar` with fewer than 2 children returns from `layoutChildren`
without touching any child index and with all state unchanged, and a
`ScrollView` with 0 children does the same for `layoutChildren` while
`measureContent` returns `(0,0)`; no out-of-range child access occurs
(the result is never `none`). -/
theorem sidebar_scrollview_underpopulated_noop
    (s : SidebarState) (sv : ScrollViewState) (a : Size)
    (hs : s.children.length < 2) (hsv : sv.children = []) :
    Sidebar.layoutChildren s = some s ∧
    ScrollView.measureContent sv a = some (⟨0, 0⟩, sv) ∧
    ScrollView.layoutChildren sv = some sv := by
  refine ⟨?_, ?_, ?_⟩
  · simp [Sidebar.layoutChildren, hs]
  · simp [ScrollView.measureContent, hsv]
  · simp [ScrollView.layoutChildren, hsv]

/-- Witness for C8 on a sidebar with one child and a childless scroll
view. -/
theorem sidebar_scrollview_underpopulated_noop_witness :
    exSidebar1.children.length < 2 ∧ exScrollEmpty.children = [] ∧
    Sidebar.layoutChildren exSidebar1 = some exSidebar1 ∧
    ScrollView.measureContent exScrollEmpty ⟨50, 50⟩ = some (⟨0, 0⟩, exScrollEmpty) ∧
    ScrollView.layoutChildren exScrollEmpty = some exScrollEmpty := by
  have h := sidebar_scrollview_underpopulated_noop exSidebar1 exScrollEmpty ⟨50, 50⟩
    (by simp [exSidebar1]) rfl
  exact ⟨by simp [exSidebar1], rfl, h.1, h.2.1, h.2.2⟩

/-- C9: a focused `TextInput` consumes every key event (press or
release, handled key or not), while an unfocused one returns `false`
and leaves its entire state (buffer and cursor included) unchanged. -/
theorem textinput_consumes_iff_focused (s : TextInputState) (e : KeyEvent) :
    (s.focused = true → (TextInput.handleKeyEvent s e).2 = true) ∧
    (s.focused = false → TextInput.handleKeyEvent s e = (s, false)) := by
  constructor
  · intro h
    simp [TextInput.handleKeyEvent, h]
  · intro h
    simp [TextInput.handleKeyEvent, h]

/-- Witness for C9: a focused input consumes a release event of an
unhandled key; the same unfocused input passes it through unchanged. -/
theorem textinput_consumes_iff_focused_witness :
    (TextInput.handleKeyEvent ⟨['a'], 1, true, 0⟩ ⟨200, false, []⟩).2 = true ∧
    TextInput.handleKeyEvent ⟨['a'], 1, false, 0⟩ ⟨200, false, []⟩ = (⟨['a'], 1, false, 0⟩, false) :=
  ⟨(textinput_consumes_iff_focused ⟨['a'], 1, true, 0⟩ ⟨200, false, []⟩).1 rfl,
   (textinput_consumes_iff_focused ⟨['a'], 1, false, 0⟩ ⟨200, false, []⟩).2 rfl⟩

/-- C10: a disabled `Button` still updates its `pressed` flag on every
mouse-button event — `pressed` becomes `event.pressed && bounds_
contains the position` — before the base disabled check returns `false`
(and no `onClick` fires). -/
theorem button_disabled_still_updates_pressed (b : ButtonState) (e : MouseEvent)
    (hd : b.widget.enabled = false) :
    Button.handleMouseButton b e =
      ({ b with pressed := e.pressed && b.widget.bounds.contains e.position }, false, []) := by
  simp [Button.handleMouseButton, Widget.handleMouseButton, hd]

/-- Witness for C10: a press inside a disabled button's bounds flips
`pressed` to `true` even though the event is not consumed. -/
theorem button_disabled_still_updates_pressed_witness :
    exButtonDisabled.widget.enabled = false ∧
    Button.handleMouseButton exButtonDisabled exPressC10 =
      ({ exButtonDisabled with pressed := true }, false, []) := by
  have h := button_disabled_still_updates_pressed exButtonDisabled exPressC10 rfl
  refine ⟨rfl, ?_⟩
  rw [h]
  norm_num [exButtonDisabled, exPressC10, Rect.contains]

/-- C2: for every visible widget, `measure` subtracts the margin from
the available size and resolves each axis independently from that
axis's `SizeSpec` (`Fixed` → spec value, `Fill` → margin-adjusted
available extent, `Percent` → margin-adjusted extent times value/100,
`Content` → `measureContent` on that axis plus the padding on that
axis); the result is cached as `measuredSize` and returned, margin not
included. -/
theorem measure_resolves_axes (w : WidgetState) (a : Size) (hv : w.visible = true) :
    let r := Widget.measure w a
    let aw := a.width - w.style.margin.horizontal
    let ah := a.height - w.style.margin.vertical
    (w.widthSpec.constraint = SizeConstraint.Fixed → r.1.width = w.widthSpec.value) ∧
    (w.widthSpec.constraint = SizeConstraint.Fill → r.1.width = aw) ∧
    (w.widthSpec.constraint = SizeConstraint.Percent →
      r.1.width = aw * (w.widthSpec.value / 100)) ∧
    (w.widthSpec.constraint = SizeConstraint.Content →
      r.1.width = (w.measureContentF ⟨aw, ah⟩).width + w.style.padding.horizontal) ∧
    (w.heightSpec.constraint = SizeConstraint.Fixed → r.1.height = w.heightSpec.value) ∧
    (w.heightSpec.constraint = SizeConstraint.Fill → r.1.height = ah) ∧
    (w.heightSpec.constraint = SizeConstraint.Percent →
      r.1.height = ah * (w.heightSpec.value / 100)) ∧
    (w.heightSpec.constraint = SizeConstraint.Content →
      r.1.height = (w.measureContentF ⟨aw, ah⟩).height + w.style.padding.vertical) ∧
    r.2 = { w with measuredSize := r.1 } := by
  refine ⟨?_, ?_, ?_, ?_, ?_, ?_, ?_, ?_, ?_⟩ <;>
    first
      | (intro hc; simp [Widget.measure, hv, hc])
      | simp [Widget.measure, hv]

/-- Witness for C2 on a visible widget with `Fill` width, `Fixed(30)`
height and margin 5: the resolved width is the margin-adjusted
available width. -/
theorem measure_resolves_axes_witness :
    exMeasureW.visible = true ∧
    (Widget.measure exMeasureW ⟨100, 80⟩).1.width =
      (100 : ℚ) - exMeasureW.style.margin.horizontal ∧
    (Widget.measure exMeasureW ⟨100, 80⟩).1.height = 30 := by
  have h := measure_resolves_axes exMeasureW ⟨100, 80⟩ rfl
  exact ⟨rfl, h.2.1 rfl, h.2.2.2.2.1 rfl⟩

/-! Helper lemmas about `stdClamp` for the slider claim. -/

theorem stdClamp_mem (v lo hi : ℚ) (h : lo ≤ hi) :
    lo ≤ stdClamp v lo hi ∧ stdClamp v lo hi ≤ hi := by
  unfold stdClamp
  split_ifs <;> constructor <;> linarith

theorem stdClamp_of_le (v lo hi : ℚ) (hv : v ≤ lo) (h : lo ≤ hi) :
    stdClamp v lo hi = lo := by
  unfold stdClamp
  split_ifs <;> linarith

theorem stdClamp_of_ge (v lo hi : ℚ) (hv : hi ≤ v) (h : lo ≤ hi) :
    stdClamp v lo hi = hi := by
  unfold stdClamp
  split_ifs <;> linarith

theorem stdClamp_mono (v1 v2 lo hi : ℚ) (h : lo ≤ hi) (hv : v1 ≤ v2) :
    stdClamp v1 lo hi ≤ stdClamp v2 lo hi := by
  unfold stdClamp
  split_ifs <;> linarith

/-- C6: the slider value mapping is monotonic and clamped: for a slider
with `min ≤ max` and positive track width, the recomputed value always
lies in `[min, max]`; a pointer at or left of the track start yields
`min`; at or right of the track end yields `max`; and the mapping is
monotonically non-decreasing in the pointer x. -/
theorem slider_update_clamped_monotone (s : SliderState) (mouseX : ℚ)
    (hmm : s.minV ≤ s.maxV) (hw : 0 < s.bounds.width) :
    (s.minV ≤ (Slider.updateValue s mouseX).value ∧
      (Slider.updateValue s mouseX).value ≤ s.maxV) ∧
    (mouseX ≤ s.bounds.x → (Slider.updateValue s mouseX).value = s.minV) ∧
    (s.bounds.x + s.bounds.width ≤ mouseX →
      (Slider.updateValue s mouseX).value = s.maxV) ∧
    (∀ x1 x2 : ℚ, x1 ≤ x2 →
      (Slider.updateValue s x1).value ≤ (Slider.updateValue s x2).value) := by
  have hspan : (0 : ℚ) ≤ s.maxV - s.minV := by linarith
  refine ⟨?_, ?_, ?_, ?_⟩
  · exact stdClamp_mem _ _ _ hmm
  · intro hx
    have hnum : mouseX - s.bounds.x ≤ 0 := by linarith
    have hnorm : (mouseX - s.bounds.x) / s.bounds.width ≤ 0 :=
      div_nonpos_iff.mpr (Or.inr ⟨hnum, le_of_lt hw⟩)
    have hprod : (mouseX - s.bounds.x) / s.bounds.width * (s.maxV - s.minV) ≤ 0 :=
      mul_nonpos_of_nonpos_of_nonneg hnorm hspan
    exact stdClamp_of_le _ _ _ (by linarith) hmm
  · intro hx
    have hnum : s.bounds.width ≤ mouseX - s.bounds.x := by linarith
    have hone : (1 : ℚ) ≤ (mouseX - s.bounds.x) / s.bounds.width :=
      (le_div_iff₀ hw).mpr (by linarith)
    have hprod : s.maxV - s.minV ≤ (mouseX - s.bounds.x) / s.bounds.width * (s.maxV - s.minV) :=
      le_mul_of_one_le_left hspan hone
    exact stdClamp_of_ge _ _ _ (by linarith) hmm
  · intro x1 x2 hx
    have hnorm : (x1 - s.bounds.x) / s.bounds.width ≤ (x2 - s.bounds.x) / s.bounds.width :=
      (div_le_div_iff_of_pos_right hw).mpr (by linarith)
    have hprod : (x1 - s.bounds.x) / s.bounds.width * (s.maxV - s.minV) ≤
        (x2 - s.bounds.x) / s.bounds.width * (s.maxV - s.minV) :=
      mul_le_mul_of_nonneg_right hnorm hspan
    exact stdClamp_mono _ _ _ _ hmm (by linarith)

/-- Witness for C6 on a slider over [0,10] with track x ∈ [10,110]:
pointer at 5 (left of track) yields 0, and monotonicity holds between
pointer positions 5 and 200. -/
theorem slider_update_clamped_monotone_witness :
    exSlider.minV ≤ exSlider.maxV ∧ 0 < exSlider.bounds.width ∧
    (Slider.updateValue exSlider 5).value = exSlider.minV ∧
    (Slider.updateValue exSlider 5).value ≤ (Slider.updateValue exSlider 200).value := by
  have h := slider_update_clamped_monotone exSlider 5 (by norm_num [exSlider]) (by norm_num [exSlider])
  refine ⟨by norm_num [exSlider], by norm_num [exSlider], ?_, ?_⟩
  · exact h.2.1 (by norm_num [exSlider])
  · exact h.2.2.2 5 200 (by norm_num)

/-! Helper lemmas about the running maximum `foldl max` used by
`Box::measureContent` on the cross axis. -/

theorem foldl_max_init_le (l : List ℚ) (a : ℚ) : a ≤ l.foldl max a := by
  induction l generalizing a with
  | nil => simp
  | cons b t ih => exact le_trans (le_max_left a b) (ih (max a b))

theorem le_foldl_max (l : List ℚ) (a : ℚ) (x : ℚ) (hx : x ∈ l) : x ≤ l.foldl max a := by
  induction l generalizing a with
  | nil => cases hx
  | cons b t ih =>
    rcases List.mem_cons.mp hx with rfl | hx'
    · exact le_trans (le_max_right a x) (foldl_max_init_le t _)
    · exact ih (max a b) hx'

theorem foldl_max_eq_init_or_mem (l : List ℚ) (a : ℚ) :
    l.foldl max a = a ∨ l.foldl max a ∈ l := by
  induction l generalizing a with
  | nil => exact Or.inl rfl
  | cons b t ih =>
    rcases ih (max a b) with h | h
    · rcases le_total a b with hab | hba
      · right
        rw [List.foldl_cons, h, max_eq_right hab]
        exact List.mem_cons_self b t
      · left
        rw [List.foldl_cons, h, max_eq_left hba]
    · exact Or.inr (List.mem_cons_of_mem b h)

theorem foldl_max_zero_is_max (l : List ℚ) (hne : l ≠ []) (hnn : ∀ x ∈ l, 0 ≤ x) :
    l.foldl max 0 ∈ l ∧ ∀ x ∈ l, x ≤ l.foldl max 0 := by
  refine ⟨?_, fun x hx => le_foldl_max l 0 x hx⟩
  rcases foldl_max_eq_init_or_mem l 0 with h | h
  · rcases List.exists_mem_of_ne_nil l hne with ⟨y, hy⟩
    have h1 : y ≤ 0 := h ▸ le_foldl_max l 0 y hy
    have h2 : 0 ≤ y := hnn y hy
    rw [h]
    exact le_antisymm h1 h2 ▸ hy
  · exact h

/-- C4: a horizontal `Box` with `n ≥ 1` children measures its content
to width `w0 + ... + w(n-1) + spacing * (n-1)` — where `wi` is child
`i`'s measured width against the spacing-reduced available size — and
to height the maximum child measured height (the children's measured
heights being nonnegative); with no children the result is `(0,0)`. -/
theorem box_horizontal_measure_content (spacing : ℚ) (children : List WidgetState)
    (available : Size) (hne : children ≠ []) :
    let totalSpacing : ℚ := spacing * ((children.length - 1 : Nat) : ℚ)
    let childAvailable : Size := ⟨available.width - totalSpacing, available.height⟩
    let sizes := children.map (fun c => (Widget.measure c childAvailable).1)
    let r := (Box.measureContent Direction.Horizontal spacing children available).1
    r.width = (sizes.map Size.width).sum + totalSpacing ∧
    ((∀ h ∈ sizes.map Size.height, (0:ℚ) ≤ h) →
      r.height ∈ sizes.map Size.height ∧ ∀ h ∈ sizes.map Size.height, h ≤ r.height) ∧
    (Box.measureContent Direction.Horizontal spacing [] available).1 = ⟨0, 0⟩ := by
  intro totalSpacing childAvailable sizes r
  have hemp : children.isEmpty = false := by
    cases children with
    | nil => exact absurd rfl hne
    | cons c t => rfl
  have hr : r = ⟨(sizes.map Size.width).sum + totalSpacing,
      (sizes.map Size.height).foldl max 0⟩ := by
    show (Box.measureContent Direction.Horizontal spacing children available).1 = _
    simp only [Box.measureContent, hemp, Bool.false_eq_true, if_false]
    simp only [sizes, childAvailable, totalSpacing, List.map_map, List.foldl_map]
    rfl
  refine ⟨by rw [hr], ?_, by simp [Box.measureContent]⟩
  intro hnn
  have hne' : sizes.map Size.height ≠ [] := by
    intro h
    rcases List.map_eq_nil_iff.mp (List.map_eq_nil_iff.mp h) with h2
    exact hne h2
  have := foldl_max_zero_is_max (sizes.map Size.height) hne' hnn
  rw [hr]
  exact this

/-- Witness for C4 on a horizontal box with spacing 15 and two
fixed-size children 40×20 and 25×35: content width is 40+25+15 = 80. -/
theorem box_horizontal_measure_content_witness :
    ([exBoxChild1, exBoxChild2] : List WidgetState) ≠ [] ∧
    (Box.measureContent Direction.Horizontal 15 [exBoxChild1, exBoxChild2] ⟨500, 400⟩).1.width
      = 80 := by
  have h := box_horizontal_measure_content 15 [exBoxChild1, exBoxChild2] ⟨500, 400⟩ (by simp)
  refine ⟨by simp, ?_⟩
  rw [h.1]
  norm_num [exBoxChild1, exBoxChild2, Widget.measure, BoxStyle.init, Widget.init,
    Padding.horizontal, Padding.vertical]

/-- `ScrollView::layoutChildren` never reads out of range (the guard
covers every child access) and does not modify the view's own
geometry, direction or scroll offset. -/
theorem scrollview_layoutChildren_total (sv : ScrollViewState) :
    ∃ sv', ScrollView.layoutChildren sv = some sv' ∧
      sv'.scrollOffset = sv.scrollOffset ∧
      sv'.contentBounds = sv.contentBounds ∧
      sv'.scrollDir = sv.scrollDir := by
  unfold ScrollView.layoutChildren
  split
  · exact ⟨sv, rfl, rfl, rfl, rfl⟩
  · rename_i hne
    split
    · rename_i hg
      exfalso
      rw [List.get?_eq_none] at hg
      have hnil : sv.children = [] := List.eq_nil_of_length_eq_zero (Nat.le_zero.mp hg)
      rw [hnil] at hne
      simp at hne
    · exact ⟨_, rfl, rfl, rfl, rfl⟩

/-- C7: `ScrollView::handleScroll` returns `false` and changes nothing
when the event position lies outside `contentBounds`; inside, it
accumulates the signed delta (times 20) onto the offset of the scroll
axis, clamps that offset only to a minimum of 0 (no upper clamp — for
any bound there is a delta pushing the offset beyond it), re-runs
`layoutChildren` synchronously and returns `true`; consequently the
invariant `scrollOffset ≥ 0` on each axis is preserved. -/
theorem scrollview_handleScroll_spec (sv : ScrollViewState) (e : ScrollEvent) :
    let newOffset : Point :=
      if sv.scrollDir = Direction.Horizontal then
        ⟨max 0 (sv.scrollOffset.x - e.deltaX * 20), sv.scrollOffset.y⟩
      else ⟨sv.scrollOffset.x, max 0 (sv.scrollOffset.y - e.deltaY * 20)⟩
    (sv.contentBounds.contains e.position = false →
      ScrollView.handleScroll sv e = some (sv, false)) ∧
    (sv.contentBounds.contains e.position = true →
      ∃ sv2, ScrollView.handleScroll sv e = some (sv2, true) ∧
        ScrollView.layoutChildren { sv with scrollOffset := newOffset } = some sv2 ∧
        sv2.scrollOffset = newOffset) ∧
    (0 ≤ sv.scrollOffset.x → 0 ≤ sv.scrollOffset.y →
      ∀ sv2 b, ScrollView.handleScroll sv e = some (sv2, b) →
        0 ≤ sv2.scrollOffset.x ∧ 0 ≤ sv2.scrollOffset.y) ∧
    (∀ bound : ℚ, ∃ d : ℚ, bound < max 0 (sv.scrollOffset.y - d * 20)) := by
  intro newOffset
  have hout : sv.contentBounds.contains e.position = false →
      ScrollView.handleScroll sv e = some (sv, false) := by
    intro h
    simp [ScrollView.handleScroll, h]
  have hin : sv.contentBounds.contains e.position = true →
      ∃ sv2, ScrollView.handleScroll sv e = some (sv2, true) ∧
        ScrollView.layoutChildren { sv with scrollOffset := newOffset } = some sv2 ∧
        sv2.scrollOffset = newOffset := by
    intro h
    rcases scrollview_layoutChildren_total { sv with scrollOffset := newOffset } with
      ⟨sv2, hlay, hoff, _, _⟩
    refine ⟨sv2, ?_, hlay, hoff⟩
    unfold ScrollView.handleScroll
    rw [h]
    simp only [Bool.true_eq_false, if_false]
    cases hdir : sv.scrollDir with
    | Horizontal =>
      have hno : newOffset = ⟨max 0 (sv.scrollOffset.x - e.deltaX * 20), sv.scrollOffset.y⟩ := by
        simp [newOffset, hdir]
      rw [hno] at hlay
      rw [hdir] at hlay
      simp [hlay]
    | Vertical =>
      have hno : newOffset = ⟨sv.scrollOffset.x, max 0 (sv.scrollOffset.y - e.deltaY * 20)⟩ := by
        simp [newOffset, hdir]
      rw [hno] at hlay
      rw [hdir] at hlay
      simp [hlay]
  refine ⟨hout, hin, ?_, ?_⟩
  · intro hx hy sv2 b hrun
    cases hcont : sv.contentBounds.contains e.position with
    | false =>
      rw [hout hcont] at hrun
      injection hrun with hp
      injection hp with h1 h2
      subst h1
      subst h2
      exact ⟨hx, hy⟩
    | true =>
      rcases hin hcont with ⟨sv2', hrun', _, hoff'⟩
      rw [hrun'] at hrun
      injection hrun with hp
      injection hp with h1 h2
      subst h1
      rw [hoff']
      cases hdir : sv.scrollDir with
      | Horizontal =>
        constructor
        · simp [newOffset, hdir]
        · simpa [newOffset, hdir] using hy
      | Vertical =>
        constructor
        · simpa [newOffset, hdir] using hx
        · simp [newOffset, hdir]
  · intro bound
    refine ⟨(sv.scrollOffset.y - bound - 1) / 20, ?_⟩
    have h20 : (20 : ℚ) ≠ 0 := by norm_num
    have h1 : (sv.scrollOffset.y - bound - 1) / 20 * 20 = sv.scrollOffset.y - bound - 1 :=
      div_mul_cancel₀ _ h20
    calc bound < bound + 1 := by linarith
    _ = sv.scrollOffset.y - (sv.scrollOffset.y - bound - 1) := by ring
    _ = sv.scrollOffset.y - (sv.scrollOffset.y - bound - 1) / 20 * 20 := by rw [h1]
    _ ≤ max 0 (sv.scrollOffset.y - (sv.scrollOffset.y - bound - 1) / 20 * 20) :=
        le_max_right _ _

/-- Witness for C7: scrolling down (deltaY = -3) inside a vertical
scroll view at offset 0 moves the offset to 60 and returns `true`. -/
theorem scrollview_handleScroll_spec_witness :
    exScroll.contentBounds.contains exScrollEvent.position = true ∧
    ∃ sv2, ScrollView.handleScroll exScroll exScrollEvent = some (sv2, true) ∧
      sv2.scrollOffset = ⟨0, 60⟩ := by
  have hc : exScroll.contentBounds.contains exScrollEvent.position = true := by
    norm_num [exScroll, exScrollEvent, Rect.contains]
  have h := (scrollview_handleScroll_spec exScroll exScrollEvent).2.1 hc
  rcases h with ⟨sv2, hrun, _, hoff⟩
  refine ⟨hc, sv2, hrun, ?_⟩
  rw [hoff]
  norm_num [exScroll, exScrollEvent]
  decide

/-! Helper lemmas for the TextInput editing round-trip. -/

/-- One focused key press that is not one of the handled keycodes and
carries nonempty text inserts that text at the cursor. -/
theorem textinput_insert_step (s : TextInputState) (e : KeyEvent)
    (hfoc : s.focused = true) (hp : e.pressed = true)
    (hk : e.keycode ∉ ([14, 111, 105, 106, 28] : List Nat)) (ht : e.text ≠ []) :
    (TextInput.handleKeyEvent s e).1 =
      { s with text := s.text.take s.cursorPos ++ e.text ++ s.text.drop s.cursorPos,
               cursorPos := s.cursorPos + e.text.length,
               onChangeCount := s.onChangeCount + 1 } := by
  have h14 : ¬ e.keycode = 14 := fun h => hk (by simp [h])
  have h111 : ¬ e.keycode = 111 := fun h => hk (by simp [h])
  have h105 : ¬ e.keycode = 105 := fun h => hk (by simp [h])
  have h106 : ¬ e.keycode = 106 := fun h => hk (by simp [h])
  have h28 : ¬ e.keycode = 28 := fun h => hk (by simp [h])
  have hte : e.text.isEmpty = false := by
    cases h : e.text with
    | nil => exact absurd h ht
    | cons a t => rfl
  simp [TextInput.handleKeyEvent, hfoc, hp, h14, h111, h105, h106, h28, hte]

/-- Folding a list of insert events over a focused state whose cursor
sits at the end of the buffer appends the events' text, keeps the
cursor at the end, stays focused, and fires `onChange` once per
event. -/
theorem textinput_insert_fold (es : List KeyEvent) (s : TextInputState)
    (hfoc : s.focused = true) (hcur : s.cursorPos = s.text.length)
    (hes : ∀ e ∈ es, e.pressed = true ∧
      e.keycode ∉ ([14, 111, 105, 106, 28] : List Nat) ∧ e.text ≠ []) :
    (es.foldl (fun st e => (TextInput.handleKeyEvent st e).1) s).text
        = s.text ++ es.flatMap KeyEvent.text ∧
    (es.foldl (fun st e => (TextInput.handleKeyEvent st e).1) s).cursorPos
        = s.text.length + (es.flatMap KeyEvent.text).length ∧
    (es.foldl (fun st e => (TextInput.handleKeyEvent st e).1) s).focused = true ∧
    (es.foldl (fun st e => (TextInput.handleKeyEvent st e).1) s).onChangeCount
        = s.onChangeCount + es.length := by
  induction es generalizing s with
  | nil => simp [hfoc, hcur]
  | cons e rest ih =>
    obtain ⟨hp, hk, ht⟩ := hes e (List.mem_cons_self e rest)
    have hstep : (TextInput.handleKeyEvent s e).1 =
        { s with text := s.text ++ e.text,
                 cursorPos := s.text.length + e.text.length,
                 onChangeCount := s.onChangeCount + 1 } := by
      rw [textinput_insert_step s e hfoc hp hk ht, hcur]
      simp [List.take_length, List.drop_length]
    have hes' : ∀ e' ∈ rest, e'.pressed = true ∧
        e'.keycode ∉ ([14, 111, 105, 106, 28] : List Nat) ∧ e'.text ≠ [] :=
      fun e' he' => hes e' (List.mem_cons_of_mem e he')
    have ihs := ih { s with text := s.text ++ e.text,
                            cursorPos := s.text.length + e.text.length,
                            onChangeCount := s.onChangeCount + 1 }
      hfoc (by simp) hes'
    rcases ihs with ⟨h1, h2, h3, h4⟩
    refine ⟨?_, ?_, ?_, ?_⟩
    · rw [List.foldl_cons, hstep, h1]
      simp
    · rw [List.foldl_cons, hstep, h2]
      simp
      omega
    · rw [List.foldl_cons, hstep]
      exact h3
    · rw [List.foldl_cons, hstep, h4]
      simp
      omega

/-- Events carrying exactly one character each contribute their count
to the flattened text. -/
theorem flatMap_singleton_length (es : List KeyEvent)
    (h : ∀ e ∈ es, e.text.length = 1) :
    (es.flatMap KeyEvent.text).length = es.length := by
  induction es with
  | nil => rfl
  | cons e rest ih =>
    simp only [List.flatMap_cons, List.length_append, List.length_cons]
    rw [h e (List.mem_cons_self e rest), ih (fun e' he' => h e' (List.mem_cons_of_mem e he'))]
    omega

/-- C5: starting from an empty focused `TextInput` with cursor 0,
`k ≥ 1` single-character insert key events yield buffer `c1...ck`,
cursor `k` and exactly one `onChange` per insert; a following backspace
press yields buffer length `k-1`, cursor `k-1` and one more `onChange`;
left/right-arrow presses never change the buffer or fire `onChange`. -/
theorem textinput_roundtrip (es : List KeyEvent) (eb ea : KeyEvent)
    (hes : ∀ e ∈ es, e.pressed = true ∧
      e.keycode ∉ ([14, 111, 105, 106, 28] : List Nat) ∧ e.text.length = 1)
    (hk : 1 ≤ es.length)
    (hbp : eb.pressed = true) (hbk : eb.keycode = 14)
    (hap : ea.pressed = true) (hak : ea.keycode = 105 ∨ ea.keycode = 106) :
    (es.foldl (fun st e => (TextInput.handleKeyEvent st e).1) ⟨[], 0, true, 0⟩).text
        = es.flatMap KeyEvent.text ∧
    (es.foldl (fun st e => (TextInput.handleKeyEvent st e).1) ⟨[], 0, true, 0⟩).text.length
        = es.length ∧
    (es.foldl (fun st e => (TextInput.handleKeyEvent st e).1) ⟨[], 0, true, 0⟩).cursorPos
        = es.length ∧
    (es.foldl (fun st e => (TextInput.handleKeyEvent st e).1) ⟨[], 0, true, 0⟩).onChangeCount
        = es.length ∧
    ((TextInput.handleKeyEvent
        (es.foldl (fun st e => (TextInput.handleKeyEvent st e).1) ⟨[], 0, true, 0⟩) eb).1.text.length
        = es.length - 1 ∧
     (TextInput.handleKeyEvent
        (es.foldl (fun st e => (TextInput.handleKeyEvent st e).1) ⟨[], 0, true, 0⟩) eb).1.cursorPos
        = es.length - 1 ∧
     (TextInput.handleKeyEvent
        (es.foldl (fun st e => (TextInput.handleKeyEvent st e).1) ⟨[], 0, true, 0⟩) eb).1.onChangeCount
        = es.length + 1) ∧
    (∀ s : TextInputState, (TextInput.handleKeyEvent s ea).1.text = s.text ∧
       (TextInput.handleKeyEvent s ea).1.onChangeCount = s.onChangeCount) := by
  have hes' : ∀ e ∈ es, e.pressed = true ∧
      e.keycode ∉ ([14, 111, 105, 106, 28] : List Nat) ∧ e.text ≠ [] := by
    intro e he
    obtain ⟨h1, h2, h3⟩ := hes e he
    refine ⟨h1, h2, ?_⟩
    intro hnil
    rw [hnil] at h3
    simp at h3
  have hlen1 : ∀ e ∈ es, e.text.length = 1 := fun e he => (hes e he).2.2
  obtain ⟨htext, hcur, hfoc, hcount⟩ :=
    textinput_insert_fold es ⟨[], 0, true, 0⟩ rfl rfl hes'
  have hflat := flatMap_singleton_length es hlen1
  have htext' : (es.foldl (fun st e => (TextInput.handleKeyEvent st e).1)
      ⟨[], 0, true, 0⟩).text = es.flatMap KeyEvent.text := by
    rw [htext]
    rfl
  have hlen : (es.foldl (fun st e => (TextInput.handleKeyEvent st e).1)
      ⟨[], 0, true, 0⟩).text.length = es.length := by
    rw [htext', hflat]
  have hcur' : (es.foldl (fun st e => (TextInput.handleKeyEvent st e).1)
      ⟨[], 0, true, 0⟩).cursorPos = es.length := by
    rw [hcur, hflat]
    simp
  have hcount' : (es.foldl (fun st e => (TextInput.handleKeyEvent st e).1)
      ⟨[], 0, true, 0⟩).onChangeCount = es.length := by
    rw [hcount]
    simp
  set sIns := es.foldl (fun st e => (TextInput.handleKeyEvent st e).1)
    (⟨[], 0, true, 0⟩ : TextInputState) with hsdef
  have hpos : 0 < sIns.cursorPos := by
    rw [hcur']
    omega
  have hbstep : (TextInput.handleKeyEvent sIns eb).1 =
      { sIns with text := sIns.text.take (sIns.cursorPos - 1) ++ sIns.text.drop sIns.cursorPos,
                  cursorPos := sIns.cursorPos - 1,
                  onChangeCount := sIns.onChangeCount + 1 } := by
    simp [TextInput.handleKeyEvent, hfoc, hbp, hbk, hpos]
  refine ⟨htext', hlen, hcur', hcount', ⟨?_, ?_, ?_⟩, ?_⟩
  · rw [hbstep]
    simp only [List.length_append, List.length_take, List.length_drop]
    rw [hcur', hlen]
    omega
  · rw [hbstep]
    simp only []
    rw [hcur']
  · rw [hbstep]
    simp only []
    rw [hcount']
  · intro s
    cases hf : s.focused with
    | false =>
      constructor <;> simp [TextInput.handleKeyEvent, hf]
    | true =>
      rcases hak with h | h <;>
        constructor <;>
          simp only [TextInput.handleKeyEvent, hf, hap, h] <;>
          norm_num <;> split_ifs <;> simp

/-- Witness for C5: typing "ab" then backspace, and a left-arrow press
on an arbitrary concrete state. -/
theorem textinput_roundtrip_witness :
    ([exKeyA, exKeyB].foldl (fun st e => (TextInput.handleKeyEvent st e).1)
        (⟨[], 0, true, 0⟩ : TextInputState)).text = ['a', 'b'] ∧
    (TextInput.handleKeyEvent
      ([exKeyA, exKeyB].foldl (fun st e => (TextInput.handleKeyEvent st e).1)
        (⟨[], 0, true, 0⟩ : TextInputState)) exKeyBackspace).1.cursorPos = 1 ∧
    (TextInput.handleKeyEvent (⟨['x'], 1, true, 5⟩ : TextInputState) exKeyLeft).1.text = ['x'] := by
  have h := textinput_roundtrip [exKeyA, exKeyB] exKeyBackspace exKeyLeft
    (by decide) (by simp) rfl rfl rfl (Or.inl rfl)
  refine ⟨?_, ?_, (h.2.2.2.2.2 ⟨['x'], 1, true, 5⟩).1⟩
  · rw [h.1]
    rfl
  · rw [h.2.2.2.2.1.2.1]
    rfl

/-- Counterexample to C1 as stated: with container bounds (0,0)–(100,100)
(enabled, the children laid out inside it) and a left press at
P = (30,30) inside both overlapping children A and B, the container's
own base handler consumes the press first — the result is
`(true, [])`: no child `onClick` fires, in particular the press is NOT
consumed by A even though A has a handler installed and contains P. -/
theorem container_hit_order_counterexample :
    exChildA.hasOnClick = true ∧
    exChildA.bounds.contains exPressC1.position = true ∧
    exChildB.bounds.contains exPressC1.position = true ∧
    exContC1.bounds.contains exPressC1.position = true ∧
    WTree.handleMouseButton exTreeC1 exPressC1 = (true, []) ∧
    exChildA.id ∉ (WTree.handleMouseButton exTreeC1 exPressC1).2 := by
  have hcA : exChildA.bounds.contains exPressC1.position = true := by
    norm_num [exChildA, exPressC1, Widget.init, Rect.contains]
  have hcB : exChildB.bounds.contains exPressC1.position = true := by
    norm_num [exChildB, exPressC1, Widget.init, Rect.contains]
  have hcC : exContC1.bounds.contains exPressC1.position = true := by
    norm_num [exContC1, exPressC1, Widget.init, Rect.contains]
  have he : exContC1.enabled = true := rfl
  have hp : exPressC1.pressed = true := rfl
  have hb : exPressC1.button = MouseButton.Left := rfl
  have hoc : exContC1.hasOnClick = false := rfl
  have hself : Widget.handleMouseButton exContC1 exPressC1 = (true, []) := by
    simp [Widget.handleMouseButton, he, hp, hb, hcC, hoc]
  have hfull : WTree.handleMouseButton exTreeC1 exPressC1 = (true, []) := by
    show WTree.handleMouseButton (WTree.cont exContC1 _) exPressC1 = (true, [])
    simp only [WTree.handleMouseButton]
    simp [hself]
  refine ⟨rfl, hcA, hcB, hcC, hfull, ?_⟩
  rw [hfull]
  simp

/-- C1 (amended): `Container::handleMouseButton` applies the base
Widget behaviour to the container itself first and, only when that
does not consume the event, tries the children in insertion order,
stopping at the first consumer; in particular, when the container's own
base handler does not consume the press (e.g. the container is disabled
or the point lies outside its bounds), a left press at P inside child A
(added first, enabled, with onClick) is consumed by A — the result is
`(true, [A.id])` — and B's handler does not fire. -/
theorem container_dispatch_order_amended (s A B : WidgetState) (e : MouseEvent)
    (hself : (Widget.handleMouseButton s e).1 = false)
    (hA : A.enabled = true) (hAclick : A.hasOnClick = true)
    (hpress : e.pressed = true) (hbtn : e.button = MouseButton.Left)
    (hPA : A.bounds.contains e.position = true)
    (hid : B.id ≠ A.id) :
    (∀ (s' : WidgetState) (cs : WTreeList) (e' : MouseEvent),
       (Widget.handleMouseButton s' e').1 = true →
       WTree.handleMouseButton (WTree.cont s' cs) e' = Widget.handleMouseButton s' e') ∧
    WTree.handleMouseButton
        (WTree.cont s (WTreeList.cons (WTree.leaf A)
          (WTreeList.cons (WTree.leaf B) WTreeList.nil))) e = (true, [A.id]) ∧
    B.id ∉ (WTree.handleMouseButton
        (WTree.cont s (WTreeList.cons (WTree.leaf A)
          (WTreeList.cons (WTree.leaf B) WTreeList.nil))) e).2 := by
  have hgen : ∀ (s' : WidgetState) (cs : WTreeList) (e' : MouseEvent),
      (Widget.handleMouseButton s' e').1 = true →
      WTree.handleMouseButton (WTree.cont s' cs) e' = Widget.handleMouseButton s' e' := by
    intro s' cs e' h
    simp only [WTree.handleMouseButton]
    simp [h]
  have hAres : Widget.handleMouseButton A e = (true, [A.id]) := by
    simp [Widget.handleMouseButton, hA, hpress, hbtn, hPA, hAclick]
  have hmain : WTree.handleMouseButton
      (WTree.cont s (WTreeList.cons (WTree.leaf A)
        (WTreeList.cons (WTree.leaf B) WTreeList.nil))) e = (true, [A.id]) := by
    simp only [WTree.handleMouseButton, WTreeList.handleMouseButton]
    simp [hself, hAres]
  refine ⟨hgen, hmain, ?_⟩
  rw [hmain]
  simp [hid]

/-- Witness for the amended C1: the same two children under the
disabled container — the container's base handler no longer consumes,
and the press at P inside both children is consumed by A (id 1), B's
handler (id 2) not firing. -/
theorem container_dispatch_order_amended_witness :
    (Widget.handleMouseButton { exContC1 with enabled := false } exPressC1).1 = false ∧
    WTree.handleMouseButton exTreeC1Disabled exPressC1 = (true, [exChildA.id]) ∧
    exChildB.id ∉ (WTree.handleMouseButton exTreeC1Disabled exPressC1).2 := by
  have h := container_dispatch_order_amended { exContC1 with enabled := false }
    exChildA exChildB exPressC1 rfl rfl rfl rfl rfl
    (by norm_num [exChildA, exPressC1, Widget.init, Rect.contains]) (by decide)
  exact ⟨rfl, h.2.1, h.2.2⟩

/-- Counterexample to C3 as stated: `Text::render` never re-checks
`visible_` after the base call, so calling it directly on an invisible
`Text` with nonempty text still issues a `drawText` call. -/
theorem text_render_invisible_counterexample :
    exTextHidden.widget.visible = false ∧
    Text.render exTextHidden (some exFont) ≠ [] := by
  refine ⟨rfl, ?_⟩
  have h : Text.render exTextHidden (some exFont) =
      [DrawCmd.glyphs ['a'] ⟨0, -7⟩] := by
    norm_num [Text.render, Widget.render, exTextHidden, exFont, TextStyle.init, Widget.init,
      BoxStyle.init]
  rw [h]
  simp

/-- C3 (amended): for every widget with `visible = false`, `measure`
returns `(0,0)` with no side effect, the base `Widget::render` issues
no drawing call, and a `Container` skips invisible children during its
child traversal; however a leaf override such as `Text::render`, called
directly, does not re-check visibility (see the counterexample). -/
theorem invisible_measure_render_amended (w : WidgetState) (a : Size)
    (self c : WidgetState) (cs : List WidgetState)
    (hw : w.visible = false) (hc : c.visible = false) :
    Widget.measure w a = (⟨0, 0⟩, w) ∧
    Widget.render w = [] ∧
    Container.render self (c :: cs) = Container.render self cs := by
  refine ⟨?_, ?_, ?_⟩
  · simp [Widget.measure, hw]
  · simp [Widget.render, hw]
  · simp [Container.render, hc]

/-- Witness for the amended C3 on an invisible widget with an opaque
background. -/
theorem invisible_measure_render_amended_witness :
    exHidden.visible = false ∧
    Widget.measure exHidden ⟨50, 50⟩ = (⟨0, 0⟩, exHidden) ∧
    Widget.render exHidden = [] ∧
    Container.render Widget.init [exHidden] = Container.render Widget.init [] := by
  have h := invisible_measure_render_amended exHidden ⟨50, 50⟩ Widget.init exHidden [] rfl rfl
  exact ⟨rfl, h.1, h.2.1, h.2.2⟩

end MetaUI
